import Mathlib

/-!
Verification of the HDC (Host-Device Communication) device-side runtime,
a shallow embedding of `src/STM32/hdc_device/hdc_device.c` together with
the wire numbering declared by `src/STM32/hdc_device/hdc_device.h` and the
demo configuration `hdc_device_conf.h` (`HDC_MAX_REQ_MESSAGE_SIZE = 128`).

Bytes are modelled as `Nat`; wherever the C code relies on `uint8_t`
overflow the reduction modulo 256 is written out explicitly.  Buffers are
`List Nat`.  A *packet* is the framed wire unit
`[payload_size, payload.., checksum, terminator]`; a *session* is the list
of packets produced by one `HDC_Compose_Packets_From_Stream`
initialize/append*/finalize cycle, and the message it carries is the
concatenation of the packet payloads.
-/

namespace HDC

/-- From `hdc_device_conf.h` of the demo: largest request message. -/
def HDC_MAX_REQ_MESSAGE_SIZE : Nat := 128

/-- From `hdc_device.h`: `#define HDC_PACKET_TERMINATOR 0x1E`. -/
def HDC_PACKET_TERMINATOR : Nat := 0x1E

/-- From `hdc_device.h`: `HDC_PACKET_OVERHEAD` (size, checksum, terminator). -/
def HDC_PACKET_OVERHEAD : Nat := 3

/-- From `hdc_device.h`: `HDC_MessageTypeID_Meta = 0xF0`. -/
def HDC_MessageTypeID_Meta : Nat := 0xF0

/-- From `hdc_device.h`: `HDC_MessageTypeID_Echo = 0xF1`. -/
def HDC_MessageTypeID_Echo : Nat := 0xF1

/-- From `hdc_device.h`: `HDC_MessageTypeID_Command = 0xF2`. -/
def HDC_MessageTypeID_Command : Nat := 0xF2

/-- From `hdc_device.h`: `HDC_MessageTypeID_Event = 0xF3`. -/
def HDC_MessageTypeID_Event : Nat := 0xF3

/-- Modelled from the spec: `hdc_device.c` routes a distinct `HdcVersion`
message type whose numeric value comes from a configuration header missing
from `src/` (spec design-note 9 records the older wire numbering
`0xCE/0xCF/0xEF`).  Any value distinct from `0xF0..0xF3` gives the same
routing for every claim below. -/
def HDC_MessageTypeID_HdcVersion : Nat := 0xCE

/-- From `hdc_device.h`: `HDC_PropertyID_LogEventThreshold = 0xF0`. -/
def HDC_PropertyID_LogEventThreshold : Nat := 0xF0

/-- From `hdc_device.h`: `HDC_PropertyID_FeatureState = 0xF1`. -/
def HDC_PropertyID_FeatureState : Nat := 0xF1

/-- From `hdc_device.h`: `HDC_EventID_Log = 0xF0`. -/
def HDC_EventID_Log : Nat := 0xF0

/-- From `hdc_device.h`: `HDC_EventID_FeatureStateTransition = 0xF1`. -/
def HDC_EventID_FeatureStateTransition : Nat := 0xF1

/-- From `hdc_device.h`: `HDC_CommandID_GetPropertyValue = 0xF0`. -/
def HDC_CommandID_GetPropertyValue : Nat := 0xF0

/-- From `hdc_device.h`: `HDC_CommandID_SetPropertyValue = 0xF1`. -/
def HDC_CommandID_SetPropertyValue : Nat := 0xF1

/-- From `hdc_device.h`: data-type tags (upper nibble = kind, lower nibble
= size in bytes, `0x_F` = variable size). -/
def HDC_DataTypeID_UINT8 : Nat := 0x01

def HDC_DataTypeID_UINT16 : Nat := 0x02

def HDC_DataTypeID_UINT32 : Nat := 0x04

def HDC_DataTypeID_INT8 : Nat := 0x11

def HDC_DataTypeID_INT16 : Nat := 0x12

def HDC_DataTypeID_INT32 : Nat := 0x14

def HDC_DataTypeID_FLOAT : Nat := 0x24

def HDC_DataTypeID_DOUBLE : Nat := 0x28

def HDC_DataTypeID_UTF8 : Nat := 0xAF

def HDC_DataTypeID_BOOL : Nat := 0xB1

def HDC_DataTypeID_BLOB : Nat := 0xBF

/-- Modelled from the spec: numeric values of `HDC_CommandErrorCode_t` are
declared in a configuration header missing from `src/`; spec section 3
assigns `0x00` no-error, `0xF1` UnknownFeature, `0xF2` UnknownCommand,
`0xF3` InvalidArgs, `0xF5` UnknownProperty, `0xF6` ReadOnlyProperty.  The
implementation distinguishes `INCORRECT_COMMAND_ARGUMENTS` from
`INVALID_PROPERTY_VALUE`; both fall under the spec's `InvalidArgs`. -/
def HDC_CommandErrorCode_NO_ERROR : Nat := 0x00

def HDC_CommandErrorCode_UNKNOWN_FEATURE : Nat := 0xF1

def HDC_CommandErrorCode_UNKNOWN_COMMAND : Nat := 0xF2

def HDC_CommandErrorCode_INCORRECT_COMMAND_ARGUMENTS : Nat := 0xF3

def HDC_CommandErrorCode_INVALID_PROPERTY_VALUE : Nat := 0xF3

def HDC_CommandErrorCode_UNKNOWN_PROPERTY : Nat := 0xF5

def HDC_CommandErrorCode_PROPERTY_IS_READONLY : Nat := 0xF6

/-- ASCII bytes of a string literal (C string without its terminator). -/
def strB (s : String) : List Nat := s.toList.map Char.toNat

/-! ## Packet finalization (tail of `HDC_Compose_Packets_From_Stream`)

When a packet is completed the code prepends the payload size, appends the
two's-complement checksum of the payload and the terminator byte. -/

/-- Source `checksum = (uint8_t)0xFF - checksum + 1` over the byte sum of the
payload, i.e. the two's complement of the payload sum modulo 256. -/
def packetChecksum (payload : List Nat) : Nat :=
  (256 - payload.sum % 256) % 256

/-- A finalized packet: size prefix, payload, checksum, terminator. -/
def finalizePacket (payload : List Nat) : List Nat :=
  payload.length :: (payload ++ [packetChecksum payload, HDC_PACKET_TERMINATOR])

/-- Payload carried by a framed packet: drop the size prefix and the two
trailing bytes (checksum and terminator). -/
def msgPayload (packet : List Nat) : List Nat :=
  packet.tail.dropLast.dropLast

/-- Checksum byte of a framed packet (the penultimate byte). -/
def packetChecksumByte (packet : List Nat) : Nat :=
  packet.dropLast.getLastD 0

/-- The message carried by a session (one compose cycle): concatenation of
the packet payloads. -/
def messageOf (session : List (List Nat)) : List Nat :=
  (session.map msgPayload).flatten

/-! ## The TX packet composer

`HDC_Compose_Packets_From_Stream` threads `pPktStart/pPktEnd` through
static locals; the observable state is the payload of the packet being
composed (`cur`) and the packets already finalized into the TX buffers
(`emitted`).  The do/while copy loop of the append mode becomes
`appendLoop`: copy `min pending avail` bytes, finalize-and-reallocate when
the packet reaches 255 payload bytes, repeat while data is pending. -/

def appendLoop (cur pending : List Nat) (emitted : List (List Nat)) :
    List Nat × List (List Nat) :=
  if h : (cur ++ pending.take (min pending.length (255 - cur.length))).length = 255 then
    if h2 : (pending.drop (min pending.length (255 - cur.length))).length = 0 then
      ([], emitted
            ++ [finalizePacket (cur ++ pending.take (min pending.length (255 - cur.length)))])
    else
      appendLoop [] (pending.drop (min pending.length (255 - cur.length)))
        (emitted
          ++ [finalizePacket (cur ++ pending.take (min pending.length (255 - cur.length)))])
  else
    (cur ++ pending.take (min pending.length (255 - cur.length)), emitted)
termination_by pending.length + cur.length
decreasing_by
  simp only [List.length_append, List.length_take, List.length_drop,
    List.length_nil, Nat.add_zero] at h h2 ⊢
  omega

/-- Source `HDC_Compose_Packets_From_Stream(NULL, -1)`: a fresh composition with
no finalized packets and an empty packet payload under composition. -/
def streamInit : List Nat × List (List Nat) := ([], [])

/-- Source `HDC_Compose_Packets_From_Stream(pData, DataSize)` with `DataSize ≥ 0`. -/
def streamAppend (st : List Nat × List (List Nat)) (data : List Nat) :
    List Nat × List (List Nat) :=
  appendLoop st.1 data st.2

/-- Source `HDC_Compose_Packets_From_Stream(NULL, -2)`: finalize the pending
packet (its payload has fewer than 255 bytes at this point). -/
def streamFinish (st : List Nat × List (List Nat)) : List (List Nat) :=
  st.2 ++ [finalizePacket st.1]

/-- One full initialize/append*/finalize cycle of
`HDC_Compose_Packets_From_Stream`, fed the given data chunks. -/
def HDC_Compose_Packets_From_Stream_run (chunks : List (List Nat)) :
    List (List Nat) :=
  streamFinish (chunks.foldl streamAppend streamInit)

/-- Source `HDC_Compose_Packets_From_Buffer`: initialize, one append, finalize. -/
def HDC_Compose_Packets_From_Buffer (data : List Nat) : List (List Nat) :=
  HDC_Compose_Packets_From_Stream_run [data]

/-- Source `HDC_Compose_EmptyPacket` writes size 0, checksum 0, terminator. -/
def HDC_Compose_EmptyPacket : List Nat :=
  [0, 0x00, HDC_PACKET_TERMINATOR]

/-! ## The RX packet framer `HDC_ParsePacket` -/

/-- Source `HDC_ParsePacket(Buffer, BufferSize, pReadingFrameErrorCounter)`.
Returns the located packet (or `none` to wait for more bytes) and the
number of reading-frame errors counted. -/
def HDC_ParsePacket : List Nat → Option (List Nat) × Nat
  | [] => (none, 0)
  | b :: rest =>
    if (b :: rest).length < HDC_PACKET_OVERHEAD then
      (none, 0)
    else if HDC_MAX_REQ_MESSAGE_SIZE < b then
      -- might be a reading-frame error: skip first byte and try again
      ((HDC_ParsePacket rest).1, (HDC_ParsePacket rest).2 + 1)
    else if (b :: rest).length < b + HDC_PACKET_OVERHEAD then
      (none, 0)
    else if (b :: rest).getD (b + 2) 0 = HDC_PACKET_TERMINATOR then
      if (rest.take (b + 1)).sum % 256 = 0 then
        -- found a full packet: trailing bytes count as frame errors
        (some ((b :: rest).take (b + HDC_PACKET_OVERHEAD)),
         (b :: rest).length - (b + HDC_PACKET_OVERHEAD))
      else
        ((HDC_ParsePacket rest).1, (HDC_ParsePacket rest).2 + 1)
    else
      ((HDC_ParsePacket rest).1, (HDC_ParsePacket rest).2 + 1)

/-- A well-formed wire packet as validated by the framer: size prefix at
most `HDC_MAX_REQ_MESSAGE_SIZE`, exactly `payload_size + 3` bytes long,
terminator last, and payload-plus-checksum summing to 0 modulo 256. -/
def validPacket : List Nat → Bool
  | [] => false
  | ps :: rest =>
    decide (ps ≤ HDC_MAX_REQ_MESSAGE_SIZE) && decide (rest.length = ps + 2)
      && decide (rest.getD (ps + 1) 0 = HDC_PACKET_TERMINATOR)
      && decide ((rest.take (ps + 1)).sum % 256 = 0)

/-- Byte-wise resync condition: starting at each byte of the garbage
prefix, the framer performs a skip (the candidate size byte exceeds
`HDC_MAX_REQ_MESSAGE_SIZE`, or the candidate packet fits in the buffer
and fails the terminator-or-checksum test) rather than accepting a packet
or waiting for more bytes. -/
def skipsOver : List Nat → List Nat → Bool
  | [], _ => true
  | b :: g, p =>
    (decide (HDC_MAX_REQ_MESSAGE_SIZE < b)
      || (decide (b + HDC_PACKET_OVERHEAD ≤ (b :: (g ++ p)).length)
        && (decide ((b :: (g ++ p)).getD (b + 2) 0 ≠ HDC_PACKET_TERMINATOR)
          || decide (((g ++ p).take (b + 1)).sum % 256 ≠ 0))))
    && skipsOver g p

/-! ## Composer invariants -/

theorem msgPayload_finalizePacket (pl : List Nat) :
    msgPayload (finalizePacket pl) = pl := by
  have h : pl ++ [packetChecksum pl, HDC_PACKET_TERMINATOR]
      = (pl ++ [packetChecksum pl]) ++ [HDC_PACKET_TERMINATOR] := by simp
  simp only [msgPayload, finalizePacket, List.tail_cons, h,
    List.dropLast_concat]

theorem finalizePacket_head (pl : List Nat) :
    (finalizePacket pl).headD 0 = pl.length := rfl

theorem finalizePacket_checksumByte (pl : List Nat) :
    packetChecksumByte (finalizePacket pl) = packetChecksum pl := by
  have h : finalizePacket pl
      = ((pl.length :: pl) ++ [packetChecksum pl]) ++ [HDC_PACKET_TERMINATOR] := by
    simp [finalizePacket]
  simp only [packetChecksumByte, h, List.dropLast_concat]
  simp [List.getLastD]

theorem finalizePacket_lastByte (pl : List Nat) :
    (finalizePacket pl).getLastD 0 = HDC_PACKET_TERMINATOR := by
  have h : finalizePacket pl
      = (pl.length :: (pl ++ [packetChecksum pl])) ++ [HDC_PACKET_TERMINATOR] := by
    simp [finalizePacket]
  rw [h]
  simp [List.getLastD]

/-- The checksum law holds for every packet the finalization step emits. -/
theorem finalizePacket_wf (pl : List Nat) :
    ((msgPayload (finalizePacket pl)).sum
        + packetChecksumByte (finalizePacket pl)) % 256 = 0 := by
  rw [msgPayload_finalizePacket, finalizePacket_checksumByte]
  unfold packetChecksum
  omega

/-- Complete behaviour of the append loop: it extends `emitted` with a run
of finalized 255-payload packets, carries the remaining bytes in the
packet under composition, and loses nothing. -/
theorem appendLoop_spec (cur pending : List Nat) (emitted : List (List Nat)) :
    cur.length < 255 →
    ∃ ns : List (List Nat),
      (appendLoop cur pending emitted).2 = emitted ++ ns
      ∧ (ns.map msgPayload).flatten ++ (appendLoop cur pending emitted).1
          = cur ++ pending
      ∧ (∀ q ∈ ns, ∃ pl : List Nat, pl.length = 255 ∧ q = finalizePacket pl)
      ∧ (appendLoop cur pending emitted).1.length
          = (cur.length + pending.length) % 255 := by
  induction cur, pending, emitted using appendLoop.induct with
  | case1 cur pending emitted h h2 =>
    intro hcur
    have hn : min pending.length (255 - cur.length) = pending.length := by
      simp only [List.length_append, List.length_take] at h
      simp only [List.length_drop] at h2
      omega
    have htake : pending.take (min pending.length (255 - cur.length)) = pending := by
      rw [hn]
      exact List.take_length pending
    have hres : appendLoop cur pending emitted
        = ([], emitted ++ [finalizePacket (cur ++ pending)]) := by
      rw [appendLoop, dif_pos h, dif_pos h2, htake]
    have hfull : (cur ++ pending).length = 255 := by
      rw [htake] at h
      exact h
    refine ⟨[finalizePacket (cur ++ pending)], ?_, ?_, ?_, ?_⟩
    · rw [hres]
    · rw [hres]
      simp [msgPayload_finalizePacket]
    · intro q hq
      simp only [List.mem_singleton] at hq
      exact ⟨cur ++ pending, hfull, hq⟩
    · rw [hres]
      simp only [List.length_nil]
      simp only [List.length_append] at hfull
      omega
  | case2 cur pending emitted h h2 ih =>
    intro hcur
    obtain ⟨ns', hsnd, hjoin, hfull', hlen⟩ := ih (by simp)
    have hres : appendLoop cur pending emitted
        = appendLoop [] (pending.drop (min pending.length (255 - cur.length)))
            (emitted
              ++ [finalizePacket
                    (cur ++ pending.take (min pending.length (255 - cur.length)))]) := by
      rw [appendLoop, dif_pos h, dif_neg h2]
    have hn : cur.length + min pending.length (255 - cur.length) = 255 := by
      simp only [List.length_append, List.length_take] at h
      omega
    have hle : min pending.length (255 - cur.length) ≤ pending.length :=
      Nat.min_le_left _ _
    have hjoin' : (ns'.map msgPayload).flatten
        ++ (appendLoop [] (pending.drop (min pending.length (255 - cur.length)))
            (emitted
              ++ [finalizePacket
                    (cur ++ pending.take (min pending.length (255 - cur.length)))])).1
        = pending.drop (min pending.length (255 - cur.length)) := by
      simpa using hjoin
    refine ⟨finalizePacket (cur ++ pending.take (min pending.length (255 - cur.length)))
              :: ns', ?_, ?_, ?_, ?_⟩
    · rw [hres, hsnd]
      simp
    · rw [hres]
      simp only [List.map_cons, List.flatten_cons, msgPayload_finalizePacket,
        List.append_assoc]
      rw [hjoin', List.take_append_drop]
    · intro q hq
      simp only [List.mem_cons] at hq
      rcases hq with hq | hq
      · exact ⟨cur ++ pending.take (min pending.length (255 - cur.length)), h, hq⟩
      · exact hfull' q hq
    · rw [hres, hlen]
      simp only [List.length_nil, List.length_drop, Nat.zero_add]
      omega
  | case3 cur pending emitted h =>
    intro hcur
    have hn : min pending.length (255 - cur.length) = pending.length := by
      simp only [List.length_append, List.length_take] at h
      omega
    have htake : pending.take (min pending.length (255 - cur.length)) = pending := by
      rw [hn]
      exact List.take_length pending
    have hres : appendLoop cur pending emitted = (cur ++ pending, emitted) := by
      rw [appendLoop, dif_neg h, htake]
    have hlt : cur.length + pending.length < 255 := by
      rw [htake] at h
      simp only [List.length_append] at h
      omega
    refine ⟨[], by simp [hres], by simp [hres], by simp, ?_⟩
    rw [hres]
    simp only [List.length_append]
    omega

/-- Folding any sequence of append calls over the composer: finalized
packets carry full 255-byte payloads, and together with the packet still
under composition they carry exactly the appended bytes. -/
theorem foldl_streamAppend_spec (chunks : List (List Nat)) :
    ∀ st : List Nat × List (List Nat), st.1.length < 255 →
    ∃ ns : List (List Nat),
      (chunks.foldl streamAppend st).2 = st.2 ++ ns
      ∧ (ns.map msgPayload).flatten ++ (chunks.foldl streamAppend st).1
          = st.1 ++ chunks.flatten
      ∧ (∀ q ∈ ns, ∃ pl : List Nat, pl.length = 255 ∧ q = finalizePacket pl)
      ∧ (chunks.foldl streamAppend st).1.length
          = (st.1.length + chunks.flatten.length) % 255 := by
  induction chunks with
  | nil =>
    intro st hst
    refine ⟨[], by simp, by simp, by simp, ?_⟩
    simp only [List.foldl_nil, List.flatten_nil, List.length_nil, Nat.add_zero]
    omega
  | cons c cs ih =>
    intro st hst
    obtain ⟨ns1, hsnd1, hjoin1, hfull1, hlen1⟩ := appendLoop_spec st.1 c st.2 hst
    have hst' : (streamAppend st c).1.length < 255 := by
      simp only [streamAppend, hlen1]
      omega
    obtain ⟨ns2, hsnd2, hjoin2, hfull2, hlen2⟩ := ih (streamAppend st c) hst'
    refine ⟨ns1 ++ ns2, ?_, ?_, ?_, ?_⟩
    · simp only [List.foldl_cons] at hsnd2 ⊢
      rw [hsnd2]
      simp only [streamAppend] at hsnd1 ⊢
      rw [hsnd1, List.append_assoc]
    · simp only [List.foldl_cons] at hjoin2 ⊢
      simp only [List.map_append, List.flatten_append, List.append_assoc]
      rw [hjoin2]
      simp only [streamAppend] at hjoin1 ⊢
      rw [← List.append_assoc, hjoin1]
      simp
    · intro q hq
      rcases List.mem_append.mp hq with hq | hq
      · exact hfull1 q hq
      · exact hfull2 q hq
    · simp only [List.foldl_cons] at hlen2 ⊢
      rw [hlen2]
      simp only [streamAppend] at hlen1 ⊢
      rw [hlen1]
      simp only [List.flatten_cons, List.length_append]
      omega

/-- Round trip of the stream composer: the concatenated payloads of the
emitted packets are exactly the appended bytes. -/
theorem messageOf_stream_run (chunks : List (List Nat)) :
    messageOf (HDC_Compose_Packets_From_Stream_run chunks) = chunks.flatten := by
  obtain ⟨ns, hsnd, hjoin, hfull, hlen⟩ :=
    foldl_streamAppend_spec chunks streamInit (by simp [streamInit])
  simp only [streamInit, List.nil_append] at hjoin
  have hsnd' : (chunks.foldl streamAppend streamInit).2 = ns := by
    simpa [streamInit] using hsnd
  simp only [HDC_Compose_Packets_From_Stream_run, streamFinish, messageOf, hsnd',
    List.map_append, List.flatten_append,
    List.map_cons, List.flatten_cons, List.map_nil, List.flatten_nil,
    msgPayload_finalizePacket, List.append_nil]
  exact hjoin

/-- Every packet emitted by a stream-composition cycle is a finalized
packet for some payload of at most 255 bytes. -/
theorem stream_run_packets (chunks : List (List Nat)) (p : List Nat)
    (hp : p ∈ HDC_Compose_Packets_From_Stream_run chunks) :
    ∃ pl : List Nat, pl.length ≤ 255 ∧ p = finalizePacket pl := by
  obtain ⟨ns, hsnd, hjoin, hfull, hlen⟩ :=
    foldl_streamAppend_spec chunks streamInit (by simp [streamInit])
  have hsnd' : (chunks.foldl streamAppend streamInit).2 = ns := by
    simpa [streamInit] using hsnd
  simp only [HDC_Compose_Packets_From_Stream_run, streamFinish, hsnd'] at hp
  rcases List.mem_append.mp hp with hp | hp
  · obtain ⟨pl, hpl, hq⟩ := hfull p hp
    exact ⟨pl, le_of_eq hpl, hq⟩
  · simp only [List.mem_singleton] at hp
    refine ⟨(chunks.foldl streamAppend streamInit).1, ?_, hp⟩
    rw [hlen]
    simp only [streamInit, List.length_nil, Nat.zero_add]
    omega

/-- C2: Checksum law.  Every packet finalized by the TX composer — any
packet of a `HDC_Compose_Packets_From_Stream` cycle (which also covers
`HDC_Compose_Packets_From_Buffer` and every reply/event composition) or
the packet written by `HDC_Compose_EmptyPacket` — has a checksum byte such
that the sum of its payload bytes plus the checksum byte is congruent to 0
modulo 256, and its last byte equals `0x1E`. -/
theorem C2_checksum_law (chunks : List (List Nat)) (p : List Nat)
    (hp : p ∈ HDC_Compose_Packets_From_Stream_run chunks
      ∨ p = HDC_Compose_EmptyPacket) :
    ((msgPayload p).sum + packetChecksumByte p) % 256 = 0
      ∧ p.getLastD 0 = HDC_PACKET_TERMINATOR := by
  rcases hp with hp | hp
  · obtain ⟨pl, _, hq⟩ := stream_run_packets chunks p hp
    subst hq
    exact ⟨finalizePacket_wf pl, finalizePacket_lastByte pl⟩
  · subst hp
    exact ⟨by decide, by decide⟩

/-- Witness for C2 at a concrete packet (the empty packet). -/
theorem C2_checksum_law_witness :
    ((msgPayload HDC_Compose_EmptyPacket).sum
        + packetChecksumByte HDC_Compose_EmptyPacket) % 256 = 0
      ∧ HDC_Compose_EmptyPacket.getLastD 0 = HDC_PACKET_TERMINATOR :=
  C2_checksum_law [] HDC_Compose_EmptyPacket (Or.inr rfl)

/-- C3: Round-trip of message packetization.  Concatenating the payloads
of the packets emitted by `HDC_Compose_Packets_From_Buffer m` yields
exactly `m`; every emitted packet except the last has payload size 255;
and when `|m|` is an exact multiple of 255 the last emitted packet is the
empty packet `[0, 0, 0x1E]` (so the host can detect message end). -/
theorem C3_roundtrip (m : List Nat) :
    messageOf (HDC_Compose_Packets_From_Buffer m) = m
      ∧ (∀ q ∈ (HDC_Compose_Packets_From_Buffer m).dropLast, q.headD 0 = 255)
      ∧ (m.length % 255 = 0 →
          (HDC_Compose_Packets_From_Buffer m).getLast?
            = some [0, 0x00, HDC_PACKET_TERMINATOR]) := by
  obtain ⟨ns, hsnd, hjoin, hfull, hlen⟩ :=
    foldl_streamAppend_spec [m] streamInit (by simp [streamInit])
  have hsnd' : (List.foldl streamAppend streamInit [m]).2 = ns := by
    simpa [streamInit] using hsnd
  have hrun : HDC_Compose_Packets_From_Buffer m
      = ns ++ [finalizePacket (List.foldl streamAppend streamInit [m]).1] := by
    simp only [HDC_Compose_Packets_From_Buffer,
      HDC_Compose_Packets_From_Stream_run, streamFinish, hsnd']
  refine ⟨?_, ?_, ?_⟩
  · have := messageOf_stream_run [m]
    simpa using this
  · intro q hq
    rw [hrun, List.dropLast_concat] at hq
    obtain ⟨pl, hpl, hq'⟩ := hfull q hq
    rw [hq', finalizePacket_head, hpl]
  · intro hm
    have hlen' : (List.foldl streamAppend streamInit [m]).1.length = 0 := by
      rw [hlen]
      simp only [streamInit, List.length_nil, Nat.zero_add, List.flatten_cons,
        List.flatten_nil, List.append_nil]
      omega
    have hnil : (List.foldl streamAppend streamInit [m]).1 = [] :=
      List.length_eq_zero.mp hlen'
    rw [hrun, hnil, List.getLast?_concat]
    rfl

/-- Witness for C3 at `m = 255 zero bytes`: the round trip holds and the
composer terminates the message with the empty packet. -/
theorem C3_roundtrip_witness :
    messageOf (HDC_Compose_Packets_From_Buffer (List.replicate 255 0))
        = List.replicate 255 0
      ∧ (HDC_Compose_Packets_From_Buffer (List.replicate 255 0)).getLast?
          = some [0, 0x00, HDC_PACKET_TERMINATOR] :=
  ⟨(C3_roundtrip (List.replicate 255 0)).1,
   (C3_roundtrip (List.replicate 255 0)).2.2
     (by rw [List.length_replicate])⟩

/-! ## Framer resync -/

theorem validPacket_length (p : List Nat) (hp : validPacket p = true) :
    3 ≤ p.length := by
  cases p with
  | nil => simp [validPacket] at hp
  | cons ps rest =>
    simp only [validPacket, Bool.and_eq_true, decide_eq_true_eq] at hp
    simp only [List.length_cons]
    omega

/-- C1 counterexample: the claim fails for `k = 1` garbage byte `0x10`
before the valid packet `[0, 0, 0x1E]`.  The garbage byte is read as a
plausible payload-size, so the framer waits for more bytes: it returns no
packet at all and counts zero reading-frame errors, instead of returning
the valid packet with at least one error counted. -/
theorem C1_resync_counterexample :
    validPacket [0, 0x00, HDC_PACKET_TERMINATOR] = true
      ∧ HDC_ParsePacket ([0x10] ++ [0, 0x00, HDC_PACKET_TERMINATOR]) = (none, 0)
      ∧ ¬((HDC_ParsePacket ([0x10] ++ [0, 0x00, HDC_PACKET_TERMINATOR])).1
            = some [0, 0x00, HDC_PACKET_TERMINATOR]
          ∧ 1 ≤ (HDC_ParsePacket ([0x10] ++ [0, 0x00, HDC_PACKET_TERMINATOR])).2) := by
  refine ⟨by decide, by decide, ?_⟩
  decide

/-- C1 (amended): resync safety of the packet framer.  For an RX buffer of
`k` garbage bytes followed by one complete valid packet, *provided* the
framer performs a byte skip at every garbage offset (the byte there
exceeds `HDC_MAX_REQ_MESSAGE_SIZE`, or the candidate packet it announces
fits inside the buffer and fails the terminator-or-checksum test),
`HDC_ParsePacket` returns the valid packet and counts exactly `k ≥ k`
reading-frame errors.  Without that proviso the claim fails: garbage may
itself be accepted as a packet, or make the framer wait for more bytes
(see the counterexample). -/
theorem C1_resync_amended (g p : List Nat) (hp : validPacket p = true)
    (hg : skipsOver g p = true) :
    HDC_ParsePacket (g ++ p) = (some p, g.length) := by
  induction g with
  | nil =>
    cases p with
    | nil => simp [validPacket] at hp
    | cons ps rest =>
      simp only [validPacket, Bool.and_eq_true, decide_eq_true_eq] at hp
      obtain ⟨⟨⟨hps, hlen⟩, hterm⟩, hsum⟩ := hp
      have hc1 : ¬((ps :: rest).length < HDC_PACKET_OVERHEAD) := by
        simp only [List.length_cons, HDC_PACKET_OVERHEAD]
        omega
      have hc2 : ¬(HDC_MAX_REQ_MESSAGE_SIZE < ps) := by
        simp only [HDC_MAX_REQ_MESSAGE_SIZE] at hps ⊢
        omega
      have hc3 : ¬((ps :: rest).length < ps + HDC_PACKET_OVERHEAD) := by
        simp only [List.length_cons, HDC_PACKET_OVERHEAD]
        omega
      have hc4 : (ps :: rest).getD (ps + 2) 0 = HDC_PACKET_TERMINATOR := by
        rw [show ps + 2 = (ps + 1) + 1 by omega, List.getD_cons_succ]
        exact hterm
      have htake : (ps :: rest).take (ps + HDC_PACKET_OVERHEAD) = ps :: rest := by
        apply List.take_of_length_le
        simp only [List.length_cons, HDC_PACKET_OVERHEAD]
        omega
      simp only [List.nil_append]
      rw [HDC_ParsePacket, if_neg hc1, if_neg hc2, if_neg hc3, if_pos hc4,
        if_pos hsum, htake]
      simp only [List.length_cons, List.length_nil, HDC_PACKET_OVERHEAD]
      congr 1
      omega
  | cons b g ih =>
    simp only [skipsOver, Bool.and_eq_true, Bool.or_eq_true, decide_eq_true_eq]
      at hg
    obtain ⟨hskip, hg'⟩ := hg
    have hrec := ih hg'
    have hplen : 3 ≤ p.length := validPacket_length p hp
    have hc1 : ¬((b :: (g ++ p)).length < HDC_PACKET_OVERHEAD) := by
      simp only [List.length_cons, List.length_append, HDC_PACKET_OVERHEAD]
      omega
    have hstep : HDC_ParsePacket ((b :: g) ++ p)
        = ((HDC_ParsePacket (g ++ p)).1, (HDC_ParsePacket (g ++ p)).2 + 1) := by
      by_cases hb : HDC_MAX_REQ_MESSAGE_SIZE < b
      · simp only [List.cons_append]
        rw [HDC_ParsePacket, if_neg hc1, if_pos hb]
      · rcases hskip with hb' | ⟨hfit, hfail⟩
        · exact absurd hb' hb
        · have hc3 : ¬((b :: (g ++ p)).length < b + HDC_PACKET_OVERHEAD) := by
            omega
          by_cases hterm : (b :: (g ++ p)).getD (b + 2) 0 = HDC_PACKET_TERMINATOR
          · have hsum : ¬(((g ++ p).take (b + 1)).sum % 256 = 0) := by
              rcases hfail with hfail | hfail
              · exact absurd hterm hfail
              · exact hfail
            simp only [List.cons_append]
            rw [HDC_ParsePacket, if_neg hc1, if_neg hb, if_neg hc3,
              if_pos hterm, if_neg hsum]
          · simp only [List.cons_append]
            rw [HDC_ParsePacket, if_neg hc1, if_neg hb, if_neg hc3,
              if_neg hterm]
    rw [hstep, hrec]
    simp

/-- Witness for C1 (amended) at one garbage byte `0xFF` before the empty
valid packet. -/
theorem C1_resync_amended_witness :
    HDC_ParsePacket ([0xFF] ++ [0, 0x00, HDC_PACKET_TERMINATOR])
      = (some [0, 0x00, HDC_PACKET_TERMINATOR], 1) :=
  C1_resync_amended [0xFF] [0, 0x00, HDC_PACKET_TERMINATOR] (by decide) (by decide)

/-! ## Device model: descriptors and registry

`hdc_device.c` wires getters/setters as function pointers.  The built-in
ones needed by the runtime itself are modelled as tags; application
handlers are outside the embedded core and surface as explicit outcomes.
The eight introspection entries of `HDC_MandatoryProperties` and
`HDC_MandatoryCommands` (GetPropertyName and friends) carry IDs declared
only in a configuration header missing from `src/`; the spec's normative
command set (section 6.2) has exactly `GetPropertyValue`/`SetPropertyValue`
and the built-in properties `LogEventThreshold`/`FeatureState`, which are
the ones modelled here. -/

/-- From `hdc_device.h`: Python logging levels. -/
def HDC_EventLogLevel_DEBUG : Nat := 10

def HDC_EventLogLevel_INFO : Nat := 20

def HDC_EventLogLevel_WARNING : Nat := 30

def HDC_EventLogLevel_ERROR : Nat := 40

def HDC_EventLogLevel_CRITICAL : Nat := 50

/-- Built-in property getters of `hdc_device.c` reachable from the claims. -/
inductive PropertyGetterTag where
  | featureStateGet
  | logEventThresholdGet
  deriving DecidableEq

/-- Built-in property setters of `hdc_device.c` reachable from the claims. -/
inductive PropertySetterTag where
  | logEventThresholdSet
  deriving DecidableEq

/-- Source `HDC_Property_Descriptor_t` (string fields dropped: no modelled code
path reads them). -/
structure HDC_Property where
  PropertyID : Nat
  PropertyDataType : Nat
  PropertyIsReadonly : Bool
  GetPropertyValue : Option PropertyGetterTag := none
  SetPropertyValue : Option PropertySetterTag := none
  pValue : Option (List Nat) := none
  ValueSize : Nat := 0
  deriving DecidableEq

/-- Source `HDC_Feature_Descriptor_t` (string fields dropped; `Commands` keeps
only the IDs of application-defined command handlers). -/
structure HDC_Feature where
  FeatureID : Nat
  Commands : List Nat := []
  Properties : List HDC_Property := []
  LogEventThreshold : Nat := HDC_EventLogLevel_INFO
  FeatureState : Nat := 0
  deriving DecidableEq

/-- The two members of `HDC_MandatoryProperties` whose IDs are declared in
`hdc_device.h`, in source order (`FeatureState` precedes
`LogEventThreshold` in the array). -/
def HDC_MandatoryProperties : List HDC_Property :=
  [ { PropertyID := HDC_PropertyID_FeatureState,
      PropertyDataType := HDC_DataTypeID_UINT8,
      PropertyIsReadonly := true,
      GetPropertyValue := some .featureStateGet },
    { PropertyID := HDC_PropertyID_LogEventThreshold,
      PropertyDataType := HDC_DataTypeID_UINT8,
      PropertyIsReadonly := false,
      GetPropertyValue := some .logEventThresholdGet,
      SetPropertyValue := some .logEventThresholdSet } ]

/-- Source `HDC_GetFeature`: first feature with the requested ID, else NULL. -/
def HDC_GetFeature (features : List HDC_Feature) (fid : Nat) :
    Option HDC_Feature :=
  features.find? (fun f => f.FeatureID == fid)

/-- Source `HDC_GetProperty`: feature-local properties first, then the mandatory
table. -/
def HDC_GetProperty (f : HDC_Feature) (pid : Nat) : Option HDC_Property :=
  match f.Properties.find? (fun q => q.PropertyID == pid) with
  | some q => some q
  | none => HDC_MandatoryProperties.find? (fun q => q.PropertyID == pid)

/-- Command resolution result of `HDC_GetCommand`. -/
inductive CommandTag where
  | user (cid : Nat)
  | getPropertyValue
  | setPropertyValue
  deriving DecidableEq

/-- Source `HDC_GetCommand`: feature-local commands first, then the two mandatory
property-access commands. -/
def HDC_GetCommand (f : HDC_Feature) (cid : Nat) : Option CommandTag :=
  if f.Commands.contains cid then some (.user cid)
  else if cid = HDC_CommandID_GetPropertyValue then some .getPropertyValue
  else if cid = HDC_CommandID_SetPropertyValue then some .setPropertyValue
  else none

/-- Mutation through the feature pointer returned by `HDC_GetFeature`:
replace the first feature carrying the ID. -/
def setFeature : List HDC_Feature → Nat → HDC_Feature → List HDC_Feature
  | [], _, _ => []
  | f :: fs, fid, f' =>
    if f.FeatureID == fid then f' :: fs else f :: setFeature fs fid f'

/-- Mutation through the property pointer returned by the feature-local
lookup: replace the first property carrying the ID. -/
def setProperty : List HDC_Property → Nat → HDC_Property → List HDC_Property
  | [], _, _ => []
  | q :: qs, pid, q' =>
    if q.PropertyID == pid then q' :: qs else q :: setProperty qs pid q'

/-! ## Reply and event composition helpers -/

/-- Source `HDC_Compose_Message_From_Pieces`: message type, feature ID,
command-or-event ID, the error code only for Command messages, then the
two optional payload chunks, packetized in one stream cycle. -/
def HDC_Compose_Message_From_Pieces (mt fid cid err : Nat)
    (pre suf : List Nat) : List (List Nat) :=
  HDC_Compose_Packets_From_Stream_run
    ([[mt], [fid], [cid]]
      ++ (if mt = HDC_MessageTypeID_Command then [[err]] else [])
      ++ (if 0 < pre.length then [pre] else [])
      ++ (if 0 < suf.length then [suf] else []))

def HDC_CmdReply_From_Pieces (fid cid err : Nat) (pre suf : List Nat) :
    List (List Nat) :=
  HDC_Compose_Message_From_Pieces HDC_MessageTypeID_Command fid cid err pre suf

/-- Source `HDC_CmdReply_Error_WithDescription`: feature and command IDs echoed
from the request header; a NULL description contributes zero bytes. -/
def HDC_CmdReply_Error_WithDescription (err : Nat)
    (desc : Option (List Nat)) (req : List Nat) : List (List Nat) :=
  HDC_CmdReply_From_Pieces (req.getD 1 0) (req.getD 2 0) err
    (match desc with
     | none => []
     | some d => d.takeWhile (fun b => b ≠ 0)) []

def HDC_CmdReply_Error (err : Nat) (req : List Nat) : List (List Nat) :=
  HDC_CmdReply_Error_WithDescription err none req

def HDC_CmdReply_Void (req : List Nat) : List (List Nat) :=
  HDC_CmdReply_Error HDC_CommandErrorCode_NO_ERROR req

def HDC_CmdReply_BlobValue (blob : List Nat) (req : List Nat) :
    List (List Nat) :=
  HDC_CmdReply_From_Pieces (req.getD 1 0) (req.getD 2 0)
    HDC_CommandErrorCode_NO_ERROR blob []

def HDC_CmdReply_UInt8Value (v : Nat) (req : List Nat) : List (List Nat) :=
  HDC_CmdReply_BlobValue [v] req

/-- Source `HDC_CmdReply_StringValue`: a NULL string is treated as an empty
string; otherwise the C string's bytes up to (excluding) the NUL. -/
def HDC_CmdReply_StringValue (value : Option (List Nat)) (req : List Nat) :
    List (List Nat) :=
  match value with
  | none => HDC_CmdReply_BlobValue [] req
  | some s => HDC_CmdReply_BlobValue (s.takeWhile (fun b => b ≠ 0)) req

/-- Source `HDC_EvtMsg`: a NULL feature defaults to `Features[0]`. -/
def HDC_EvtMsg (features : List HDC_Feature) (fopt : Option HDC_Feature)
    (eventID : Nat) (pre suf : List Nat) : List (List Nat) :=
  HDC_Compose_Message_From_Pieces HDC_MessageTypeID_Event
    (fopt.getD (features.headD
      { FeatureID := 0 })).FeatureID
    eventID HDC_CommandErrorCode_NO_ERROR pre suf

/-- Source `HDC_EvtMsg_Log`: dropped entirely below the feature's threshold. -/
def HDC_EvtMsg_Log (features : List HDC_Feature) (fopt : Option HDC_Feature)
    (logLevel : Nat) (text : List Nat) : List (List (List Nat)) :=
  if logLevel < (fopt.getD (features.headD
      { FeatureID := 0 })).LogEventThreshold then
    []
  else
    [HDC_EvtMsg features fopt HDC_EventID_Log [logLevel] text]

/-- Source `HDC_FeatureStateTransition`: no-op on the current state, otherwise
update the field and emit the `FeatureStateTransition(prev, new)` event.
Returns the updated feature and the event sessions composed. -/
def HDC_FeatureStateTransition (f : HDC_Feature) (newState : Nat) :
    HDC_Feature × List (List (List Nat)) :=
  if newState = f.FeatureState then
    (f, [])
  else
    ({ f with FeatureState := newState },
     [HDC_EvtMsg [] (some f) HDC_EventID_FeatureStateTransition
        [f.FeatureState] [newState]])

/-! ## Property engine -/

/-- Source `HDC_Cmd_GetPropertyValue`.  `none` models a call into the fatal
`Error_Handler` (descriptor bug); otherwise the reply sessions composed.
Size validation is skipped when invoked from `HDC_Cmd_SetPropertyValue`
(recognisable by the echoed CommandID). -/
def HDC_Cmd_GetPropertyValue (features : List HDC_Feature) (req : List Nat)
    (size : Nat) : Option (List (List (List Nat))) :=
  if req.getD 2 0 = HDC_CommandID_GetPropertyValue ∧ size ≠ 4 then
    some [HDC_CmdReply_Error HDC_CommandErrorCode_INCORRECT_COMMAND_ARGUMENTS req]
  else
    match HDC_GetFeature features (req.getD 1 0) with
    | none => some [HDC_CmdReply_Error HDC_CommandErrorCode_UNKNOWN_FEATURE req]
    | some f =>
      match HDC_GetProperty f (req.getD 3 0) with
      | none => some [HDC_CmdReply_Error HDC_CommandErrorCode_UNKNOWN_PROPERTY req]
      | some q =>
        match q.GetPropertyValue with
        | some .featureStateGet =>
          some [HDC_CmdReply_UInt8Value f.FeatureState req]
        | some .logEventThresholdGet =>
          some [HDC_CmdReply_UInt8Value f.LogEventThreshold req]
        | none =>
          match q.pValue with
          | none => none
          | some st =>
            if q.PropertyDataType = HDC_DataTypeID_BOOL then
              some [HDC_CmdReply_BlobValue (st.take 1) req]
            else if q.PropertyDataType = HDC_DataTypeID_UINT8 then
              some [HDC_CmdReply_BlobValue (st.take 1) req]
            else if q.PropertyDataType = HDC_DataTypeID_UINT16 then
              some [HDC_CmdReply_BlobValue (st.take 2) req]
            else if q.PropertyDataType = HDC_DataTypeID_UINT32 then
              some [HDC_CmdReply_BlobValue (st.take 4) req]
            else if q.PropertyDataType = HDC_DataTypeID_INT8 then
              some [HDC_CmdReply_BlobValue (st.take 1) req]
            else if q.PropertyDataType = HDC_DataTypeID_INT16 then
              some [HDC_CmdReply_BlobValue (st.take 2) req]
            else if q.PropertyDataType = HDC_DataTypeID_INT32 then
              some [HDC_CmdReply_BlobValue (st.take 4) req]
            else if q.PropertyDataType = HDC_DataTypeID_FLOAT then
              some [HDC_CmdReply_BlobValue (st.take 4) req]
            else if q.PropertyDataType = HDC_DataTypeID_DOUBLE then
              some [HDC_CmdReply_BlobValue (st.take 8) req]
            else if q.PropertyDataType = HDC_DataTypeID_UTF8 then
              some [HDC_CmdReply_StringValue (some st) req]
            else if q.PropertyDataType = HDC_DataTypeID_BLOB then
              if q.ValueSize = 0 then none
              else some [HDC_CmdReply_BlobValue (st.take q.ValueSize) req]
            else none

/-- Source `CONSTRAIN(newValue, DEBUG, CRITICAL)` followed by rounding to the
nearest multiple of 10, as in `HDC_Property_LogEventThreshold_set`. -/
def logEventThresholdOf (newValue : Nat) : Nat :=
  (((if newValue < HDC_EventLogLevel_DEBUG then HDC_EventLogLevel_DEBUG
     else if HDC_EventLogLevel_CRITICAL < newValue then HDC_EventLogLevel_CRITICAL
     else newValue) + 5) / 10) * 10

/-- Source `memcpy(property->pValue, pRequestMessage + 4, receivedValueSize)`
into the backing storage, plus the NUL terminator written for `UTF8`. -/
def storageAfterSet (q : HDC_Property) (req : List Nat) (recv : Nat)
    (st : List Nat) : List Nat :=
  if q.PropertyDataType = HDC_DataTypeID_UTF8 then
    (((req.drop 4).take recv) ++ st.drop recv).set recv 0
  else
    ((req.drop 4).take recv) ++ st.drop recv

/-- The property descriptor after its backing storage was overwritten. -/
def propertyAfterSet (q : HDC_Property) (req : List Nat) (recv : Nat)
    (st : List Nat) : HDC_Property :=
  { q with pValue := some (storageAfterSet q req recv st) }

/-- The feature after the backing storage of its property `q` was
overwritten in place. -/
def featureAfterSet (f : HDC_Feature) (q : HDC_Property) (req : List Nat)
    (recv : Nat) (st : List Nat) : HDC_Feature :=
  { f with Properties :=
      setProperty f.Properties q.PropertyID (propertyAfterSet q req recv st) }

/-- The device after the backing storage of property `q` on feature `f`
has been overwritten in place. -/
def featuresAfterSet (features : List HDC_Feature) (f : HDC_Feature)
    (q : HDC_Property) (req : List Nat) (recv : Nat) (st : List Nat) :
    List HDC_Feature :=
  setFeature features f.FeatureID (featureAfterSet f q req recv st)

/-- Acceptance path of `HDC_Cmd_SetPropertyValue` after size validation:
run the registered setter, or copy the raw bytes into backing storage and
reply as `HDC_Cmd_GetPropertyValue` would on the updated device. -/
def HDC_Cmd_SetPropertyValue_store (features : List HDC_Feature)
    (f : HDC_Feature) (q : HDC_Property) (req : List Nat)
    (size recv : Nat) : Option (List HDC_Feature × List (List (List Nat))) :=
  match q.SetPropertyValue with
  | some .logEventThresholdSet =>
    some (setFeature features f.FeatureID
            { f with LogEventThreshold := logEventThresholdOf (req.getD 4 0) },
          [HDC_CmdReply_UInt8Value (logEventThresholdOf (req.getD 4 0)) req])
  | none =>
    match q.pValue with
    | none => none
    | some st =>
      match HDC_Cmd_GetPropertyValue (featuresAfterSet features f q req recv st)
          req size with
      | none => none
      | some ss => some (featuresAfterSet features f q req recv st, ss)

/-- Source `HDC_Cmd_SetPropertyValue`.  `receivedValueSize = Size - 4` in
`uint8_t` arithmetic; the lower nibble of the data type drives the size
validation, with `0x_F` meaning variable size bounded by `ValueSize`
(one byte reserved for the NUL) and nibble `0` the BOOL special case. -/
def HDC_Cmd_SetPropertyValue (features : List HDC_Feature) (req : List Nat)
    (size : Nat) : Option (List HDC_Feature × List (List (List Nat))) :=
  match HDC_GetFeature features (req.getD 1 0) with
  | none => some (features, [HDC_CmdReply_Error HDC_CommandErrorCode_UNKNOWN_FEATURE req])
  | some f =>
    match HDC_GetProperty f (req.getD 3 0) with
    | none => some (features, [HDC_CmdReply_Error HDC_CommandErrorCode_UNKNOWN_PROPERTY req])
    | some q =>
      if q.PropertyIsReadonly then
        some (features, [HDC_CmdReply_Error HDC_CommandErrorCode_PROPERTY_IS_READONLY req])
      else
        if q.PropertyDataType % 16 = 0x0F then
          if q.ValueSize = 0 then none
          else if q.ValueSize ≤ (size + 252) % 256 then
            some (features, [HDC_CmdReply_Error HDC_CommandErrorCode_INVALID_PROPERTY_VALUE req])
          else
            HDC_Cmd_SetPropertyValue_store features f q req size ((size + 252) % 256)
        else
          if (size + 252) % 256
              ≠ (if q.PropertyDataType % 16 = 0 then 1 else q.PropertyDataType % 16) then
            some (features, [HDC_CmdReply_Error HDC_CommandErrorCode_INVALID_PROPERTY_VALUE req])
          else
            HDC_Cmd_SetPropertyValue_store features f q req size ((size + 252) % 256)

/-! ## Message dispatch -/

/-- Outcome of routing one inbound message: reply sessions composed on a
possibly updated device, a fatal `Error_Handler` call, or the hand-off to
an application-defined command handler (outside the embedded core). -/
inductive ReplyOutcome where
  | replies (features : List HDC_Feature) (sessions : List (List (List Nat)))
  | fatalError
  | userCommand (cid : Nat)
  deriving DecidableEq

/-- Source `HDC_MsgReply_Echo`: the reply message equals the full request. -/
def HDC_MsgReply_Echo (req : List Nat) : List (List Nat) :=
  HDC_Compose_Packets_From_Buffer req

/-- Source `HDC_MsgReply_Command`: look up the feature, then the command, and
run the handler; misses are answered with the matching exception. -/
def HDC_MsgReply_Command (features : List HDC_Feature) (req : List Nat) :
    ReplyOutcome :=
  match HDC_GetFeature features (req.getD 1 0) with
  | none =>
    .replies features [HDC_CmdReply_Error HDC_CommandErrorCode_UNKNOWN_FEATURE req]
  | some f =>
    match HDC_GetCommand f (req.getD 2 0) with
    | none =>
      .replies features [HDC_CmdReply_Error HDC_CommandErrorCode_UNKNOWN_COMMAND req]
    | some (.user cid) => .userCommand cid
    | some .getPropertyValue =>
      match HDC_Cmd_GetPropertyValue features req req.length with
      | none => .fatalError
      | some ss => .replies features ss
    | some .setPropertyValue =>
      match HDC_Cmd_SetPropertyValue features req req.length with
      | none => .fatalError
      | some (fs, ss) => .replies fs ss

/-! ## Meta/IDL emitter (JSON streamed through the composer) -/

def HDC_JSON_Object_start : List Nat := strB ("\x7b")

def HDC_JSON_Object_end : List Nat := strB ("\x7d")

def HDC_JSON_Array_start : List Nat := strB ("[")

def HDC_JSON_Array_end : List Nat := strB ("]")

def HDC_JSON_Colon : List Nat := strB (":")

def HDC_JSON_Comma : List Nat := strB (",")

def HDC_JSON_Quoted (v : List Nat) : List (List Nat) :=
  [strB ("\x22"), v, strB ("\x22")]

def HDC_JSON_Integer (n : Nat) : List (List Nat) := [strB (Nat.repr n)]

def HDC_JSON_Key (k : List Nat) : List (List Nat) :=
  HDC_JSON_Quoted k ++ [HDC_JSON_Colon]

def HDC_JSON_Attr_str (k v : List Nat) : List (List Nat) :=
  HDC_JSON_Quoted k ++ [HDC_JSON_Colon] ++ HDC_JSON_Quoted v

def HDC_JSON_Attr_int (k : List Nat) (v : Nat) : List (List Nat) :=
  HDC_JSON_Quoted k ++ [HDC_JSON_Colon] ++ HDC_JSON_Integer v

/-- From `hdc_device.h`: `#define HDC_VERSION_STRING "HDC 1.0.0-alpha.12"`. -/
def HDC_VERSION_STRING : List Nat := strB ("HDC 1.0.0-alpha.12")

/-- The features loop of `HDC_JSON_Device`: a comma before every feature
except the first.  The per-feature serializer `HDC_JSON_Feature` is kept
as a parameter: its body prints descriptor IDs declared only in a header
missing from `src/`, and no claim depends on it. -/
def jsonFeaturesLoop (jf : HDC_Feature → List (List Nat)) :
    List HDC_Feature → List (List Nat)
  | [] => []
  | f :: fs => jf f ++ (fs.map (fun g => HDC_JSON_Comma :: jf g)).flatten

/-- Source `HDC_JSON_Device`: version, MaxReq and the features array. -/
def HDC_JSON_Device (jf : HDC_Feature → List (List Nat))
    (features : List HDC_Feature) : List (List Nat) :=
  [HDC_JSON_Object_start]
    ++ HDC_JSON_Attr_str (strB ("version")) HDC_VERSION_STRING
    ++ [HDC_JSON_Comma]
    ++ HDC_JSON_Attr_int (strB ("MaxReq")) HDC_MAX_REQ_MESSAGE_SIZE
    ++ [HDC_JSON_Comma]
    ++ HDC_JSON_Key (strB ("features"))
    ++ [HDC_JSON_Array_start]
    ++ jsonFeaturesLoop jf features
    ++ [HDC_JSON_Array_end]
    ++ [HDC_JSON_Object_end]

/-- Source `HDC_MsgReply_Meta`: one stream cycle carrying the Meta message type
byte followed by the streamed IDL JSON — for every request payload that
begins with the Meta message type, whatever follows it. -/
def HDC_MsgReply_Meta (jf : HDC_Feature → List (List Nat))
    (features : List HDC_Feature) : List (List Nat) :=
  HDC_Compose_Packets_From_Stream_run
    ([[HDC_MessageTypeID_Meta]] ++ HDC_JSON_Device jf features)

/-- Source `HDC_MsgReply_HdcVersion`: the version string behind the HdcVersion
message type byte. -/
def HDC_MsgReply_HdcVersion : List (List Nat) :=
  HDC_Compose_Packets_From_Buffer
    (HDC_MessageTypeID_HdcVersion :: HDC_VERSION_STRING)

/-- Source `HDC_ProcessRxMessage`: route one received request message.  The
custom message router is modelled as absent (the demo registers none). -/
def HDC_ProcessRxMessage (jf : HDC_Feature → List (List Nat))
    (features : List HDC_Feature) (req : List Nat) : ReplyOutcome :=
  if req.length = 0 then .replies features []
  else if req.getD 0 0 = HDC_MessageTypeID_HdcVersion then
    .replies features [HDC_MsgReply_HdcVersion]
  else if req.getD 0 0 = HDC_MessageTypeID_Echo then
    .replies features [HDC_MsgReply_Echo req]
  else if req.getD 0 0 = HDC_MessageTypeID_Command then
    if req.length < 3 then
      .replies features
        (HDC_EvtMsg_Log features none HDC_EventLogLevel_ERROR
          (strB ("Malformed command request")))
    else HDC_MsgReply_Command features req
  else if req.getD 0 0 = HDC_MessageTypeID_Meta then
    .replies features [HDC_MsgReply_Meta jf features]
  else
    .replies features
      (HDC_EvtMsg_Log features none HDC_EventLogLevel_ERROR
        (strB ("Unknown message type")))

/-! ## Supporting lemmas for the dispatch claims -/

/-- The message carried by a `HDC_Compose_Message_From_Pieces` session:
header bytes, the error code for Command messages, then both chunks. -/
theorem messageOf_pieces (mt fid cid err : Nat) (pre suf : List Nat) :
    messageOf (HDC_Compose_Message_From_Pieces mt fid cid err pre suf)
      = [mt, fid, cid]
        ++ (if mt = HDC_MessageTypeID_Command then [err] else [])
        ++ pre ++ suf := by
  unfold HDC_Compose_Message_From_Pieces
  rw [messageOf_stream_run]
  by_cases h1 : mt = HDC_MessageTypeID_Command
  · by_cases h2 : 0 < pre.length
    · by_cases h3 : 0 < suf.length
      · simp [h1, h2, h3]
      · have : suf = [] := by
          cases suf with
          | nil => rfl
          | cons a l => simp at h3
        subst this
        simp [h1, h2]
    · have hpre : pre = [] := by
        cases pre with
        | nil => rfl
        | cons a l => simp at h2
      subst hpre
      by_cases h3 : 0 < suf.length
      · simp [h1, h3]
      · have : suf = [] := by
          cases suf with
          | nil => rfl
          | cons a l => simp at h3
        subst this
        simp [h1]
  · by_cases h2 : 0 < pre.length
    · by_cases h3 : 0 < suf.length
      · simp [h1, h2, h3]
      · have : suf = [] := by
          cases suf with
          | nil => rfl
          | cons a l => simp at h3
        subst this
        simp [h1, h2]
    · have hpre : pre = [] := by
        cases pre with
        | nil => rfl
        | cons a l => simp at h2
      subst hpre
      by_cases h3 : 0 < suf.length
      · simp [h1, h3]
      · have : suf = [] := by
          cases suf with
          | nil => rfl
          | cons a l => simp at h3
        subst this
        simp [h1]

/-- A feature located by `HDC_GetFeature` satisfies the ID predicate. -/
theorem HDC_GetFeature_id (features : List HDC_Feature) (fid : Nat)
    (f : HDC_Feature) (hf : HDC_GetFeature features fid = some f) :
    f.FeatureID = fid := by
  have := List.find?_some hf
  simpa using this

/-- Looking up the feature again after replacing it in place yields the
replacement (the model of mutation through the descriptor pointer). -/
theorem HDC_GetFeature_setFeature (features : List HDC_Feature) (fid : Nat)
    (f f' : HDC_Feature) (hf : HDC_GetFeature features fid = some f)
    (hid : f'.FeatureID = fid) :
    HDC_GetFeature (setFeature features fid f') fid = some f' := by
  induction features with
  | nil => simp [HDC_GetFeature] at hf
  | cons g gs ih =>
    by_cases h : g.FeatureID == fid
    · simp only [setFeature, h, if_true, HDC_GetFeature, List.find?_cons]
      have : (f'.FeatureID == fid) = true := by simpa using hid
      simp [this]
    · have hfalse : (g.FeatureID == fid) = false := Bool.eq_false_iff.mpr h
      simp only [HDC_GetFeature, List.find?_cons, hfalse] at hf
      simp only [setFeature, hfalse, Bool.false_eq_true, if_false,
        HDC_GetFeature, List.find?_cons]
      exact ih hf

/-- Same for a property replaced inside a property list. -/
theorem find?_setProperty (qs : List HDC_Property) (pid : Nat)
    (p p' : HDC_Property)
    (hp : qs.find? (fun q => q.PropertyID == pid) = some p)
    (hid : p'.PropertyID = pid) :
    (setProperty qs pid p').find? (fun q => q.PropertyID == pid) = some p' := by
  induction qs with
  | nil => simp at hp
  | cons g gs ih =>
    by_cases h : g.PropertyID == pid
    · simp only [setProperty, h, if_true, List.find?_cons]
      have : (p'.PropertyID == pid) = true := by simpa using hid
      simp [this]
    · have hfalse : (g.PropertyID == pid) = false := Bool.eq_false_iff.mpr h
      simp only [List.find?_cons, hfalse] at hp
      simp only [setProperty, hfalse, Bool.false_eq_true, if_false,
        List.find?_cons]
      exact ih hp

/-- C9: Echo identity.  Every Echo request (first payload byte `0xF1`) of
1 to 254 bytes is routed to `HDC_MsgReply_Echo`, which composes a single
reply message equal to the entire request payload byte for byte. -/
theorem C9_echo_identity (jf : HDC_Feature → List (List Nat))
    (features : List HDC_Feature) (req : List Nat)
    (hhead : req.getD 0 0 = HDC_MessageTypeID_Echo)
    (hlo : 1 ≤ req.length) (hhi : req.length ≤ 254) :
    HDC_ProcessRxMessage jf features req
      = .replies features [HDC_MsgReply_Echo req]
      ∧ messageOf (HDC_MsgReply_Echo req) = req := by
  constructor
  · unfold HDC_ProcessRxMessage
    rw [if_neg (by omega), hhead]
    rw [if_neg (by decide), if_pos rfl]
  · unfold HDC_MsgReply_Echo HDC_Compose_Packets_From_Buffer
    rw [messageOf_stream_run]
    simp

/-- Witness for C9 at the concrete Echo request `F1 DE AD`. -/
theorem C9_echo_identity_witness :
    HDC_ProcessRxMessage (fun _ => []) [] [0xF1, 0xDE, 0xAD]
      = .replies [] [HDC_MsgReply_Echo [0xF1, 0xDE, 0xAD]]
      ∧ messageOf (HDC_MsgReply_Echo [0xF1, 0xDE, 0xAD]) = [0xF1, 0xDE, 0xAD] :=
  C9_echo_identity (fun _ => []) [] [0xF1, 0xDE, 0xAD]
    (by decide) (by decide) (by decide)

/-- C10: NULL-string edge case.  `HDC_CmdReply_StringValue` with a NULL
string composes exactly the reply it composes for an empty string: the
Command success reply `[0xF2, request[1], request[2], 0x00]` with zero
value bytes. -/
theorem C10_null_string (req : List Nat) :
    HDC_CmdReply_StringValue none req = HDC_CmdReply_StringValue (some []) req
      ∧ messageOf (HDC_CmdReply_StringValue none req)
          = [HDC_MessageTypeID_Command, req.getD 1 0, req.getD 2 0,
             HDC_CommandErrorCode_NO_ERROR] := by
  constructor
  · rfl
  · unfold HDC_CmdReply_StringValue HDC_CmdReply_BlobValue
      HDC_CmdReply_From_Pieces
    rw [messageOf_pieces]
    simp

/-- C8: unknown-feature error reply.  A Command request whose FeatureID
matches no registered feature is answered with exactly one Command message
`[0xF2, fid, cid, 0xF1]` (UnknownFeature), echoing the request header,
with no return-value bytes, and the device is unchanged. -/
theorem C8_unknown_feature (jf : HDC_Feature → List (List Nat))
    (features : List HDC_Feature) (fid cid : Nat) (rest : List Nat)
    (hmiss : ∀ f ∈ features, f.FeatureID ≠ fid) :
    HDC_ProcessRxMessage jf features ([0xF2, fid, cid] ++ rest)
      = .replies features
          [HDC_CmdReply_Error HDC_CommandErrorCode_UNKNOWN_FEATURE
            ([0xF2, fid, cid] ++ rest)]
      ∧ messageOf (HDC_CmdReply_Error HDC_CommandErrorCode_UNKNOWN_FEATURE
            ([0xF2, fid, cid] ++ rest))
          = [0xF2, fid, cid, HDC_CommandErrorCode_UNKNOWN_FEATURE] := by
  have hfind : HDC_GetFeature features fid = none := by
    unfold HDC_GetFeature
    rw [List.find?_eq_none]
    intro f hfmem
    simpa using hmiss f hfmem
  have hg0 : ([0xF2, fid, cid] ++ rest).getD 0 0 = 0xF2 := rfl
  constructor
  · unfold HDC_ProcessRxMessage
    rw [if_neg (by simp), if_neg (by rw [hg0]; decide),
      if_neg (by rw [hg0]; decide), if_pos (by rw [hg0]; rfl), if_neg (by simp)]
    unfold HDC_MsgReply_Command
    have hg1 : ([0xF2, fid, cid] ++ rest).getD 1 0 = fid := rfl
    rw [hg1, hfind]
  · unfold HDC_CmdReply_Error HDC_CmdReply_Error_WithDescription
      HDC_CmdReply_From_Pieces
    rw [messageOf_pieces]
    rfl

/-- Witness for C8 at scenario S5: request `F2 7A F0 10` against a device
whose only feature is the Core feature (ID 0). -/
theorem C8_unknown_feature_witness :
    HDC_ProcessRxMessage (fun _ => []) [{ FeatureID := 0 }]
        ([0xF2, 0x7A, 0xF0] ++ [0x10])
      = .replies [{ FeatureID := 0 }]
          [HDC_CmdReply_Error HDC_CommandErrorCode_UNKNOWN_FEATURE
            ([0xF2, 0x7A, 0xF0] ++ [0x10])]
      ∧ messageOf (HDC_CmdReply_Error HDC_CommandErrorCode_UNKNOWN_FEATURE
            ([0xF2, 0x7A, 0xF0] ++ [0x10]))
          = [0xF2, 0x7A, 0xF0, HDC_CommandErrorCode_UNKNOWN_FEATURE] :=
  C8_unknown_feature (fun _ => []) [{ FeatureID := 0 }] 0x7A 0xF0 [0x10]
    (by decide)

/-- C4 divergence evidence: a Meta request `[0xF0, 0xF1]` (MetaID MaxReq)
is routed to `HDC_MsgReply_Meta`, whose reply message is the Meta type
byte followed by the streamed IDL JSON — it begins `F0 7B` (`7B` = an
opening brace) for every device and every feature serializer, and is never
the `F0 F1 80 00 00 00` MaxReq reply the spec demands. -/
theorem C4_meta_maxreq_divergence (jf : HDC_Feature → List (List Nat))
    (features : List HDC_Feature) :
    HDC_ProcessRxMessage jf features [0xF0, 0xF1]
      = .replies features [HDC_MsgReply_Meta jf features]
      ∧ (messageOf (HDC_MsgReply_Meta jf features)).take 2 = [0xF0, 0x7B]
      ∧ messageOf (HDC_MsgReply_Meta jf features)
          ≠ [0xF0, 0xF1, 0x80, 0x00, 0x00, 0x00] := by
  have htake : (messageOf (HDC_MsgReply_Meta jf features)).take 2
      = [0xF0, 0x7B] := by
    unfold HDC_MsgReply_Meta
    rw [messageOf_stream_run]
    simp [HDC_JSON_Device, HDC_JSON_Object_start, strB, HDC_MessageTypeID_Meta,
      List.take]
  refine ⟨?_, htake, ?_⟩
  · unfold HDC_ProcessRxMessage
    rw [if_neg (by simp), if_neg (by decide), if_neg (by decide),
      if_neg (by decide), if_pos (by rfl)]
  · intro hcontra
    rw [hcontra] at htake
    simp at htake

/-- C5: state-transition atomicity.  `HDC_FeatureStateTransition f s` is a
no-op when `s` is the current state (no event, state unchanged); otherwise
the feature's state becomes `s`, the single emitted event message is
`[0xF3, FeatureID, 0xF1, prev, s]` with `prev ≠ s`, and a subsequent
`GetPropertyValue` of the `FeatureState` property on the updated device
replies with value `s`. -/
theorem C5_state_transition (features : List HDC_Feature) (f : HDC_Feature)
    (s : Nat) (hs : s < 256)
    (hf : HDC_GetFeature features f.FeatureID = some f)
    (hshadow : f.Properties.find?
      (fun q => q.PropertyID == HDC_PropertyID_FeatureState) = none) :
    (s = f.FeatureState → HDC_FeatureStateTransition f s = (f, []))
      ∧ (s ≠ f.FeatureState →
          (HDC_FeatureStateTransition f s).1.FeatureState = s
          ∧ (HDC_FeatureStateTransition f s).2.map messageOf
              = [[HDC_MessageTypeID_Event, f.FeatureID,
                  HDC_EventID_FeatureStateTransition, f.FeatureState, s]]
          ∧ f.FeatureState ≠ s
          ∧ HDC_Cmd_GetPropertyValue
              (setFeature features f.FeatureID (HDC_FeatureStateTransition f s).1)
              [HDC_MessageTypeID_Command, f.FeatureID,
               HDC_CommandID_GetPropertyValue, HDC_PropertyID_FeatureState] 4
            = some [HDC_CmdReply_UInt8Value s
                [HDC_MessageTypeID_Command, f.FeatureID,
                 HDC_CommandID_GetPropertyValue, HDC_PropertyID_FeatureState]]) := by
  constructor
  · intro heq
    unfold HDC_FeatureStateTransition
    rw [if_pos heq]
  · intro hne
    have hres : HDC_FeatureStateTransition f s
        = ({ f with FeatureState := s },
           [HDC_EvtMsg [] (some f) HDC_EventID_FeatureStateTransition
              [f.FeatureState] [s]]) := by
      unfold HDC_FeatureStateTransition
      rw [if_neg hne]
    refine ⟨by rw [hres], ?_, fun h => hne h.symm, ?_⟩
    · rw [hres]
      simp only [List.map_cons, List.map_nil]
      unfold HDC_EvtMsg
      rw [messageOf_pieces]
      simp [HDC_MessageTypeID_Event, HDC_MessageTypeID_Command]
    · have hid : ({ f with FeatureState := s } : HDC_Feature).FeatureID
          = f.FeatureID := rfl
      have hGF := HDC_GetFeature_setFeature features f.FeatureID f
        { f with FeatureState := s } hf hid
      have hGP : HDC_GetProperty { f with FeatureState := s }
          HDC_PropertyID_FeatureState
          = some { PropertyID := HDC_PropertyID_FeatureState,
                   PropertyDataType := HDC_DataTypeID_UINT8,
                   PropertyIsReadonly := true,
                   GetPropertyValue := some .featureStateGet } := by
        unfold HDC_GetProperty
        rw [show ({ f with FeatureState := s } : HDC_Feature).Properties
            = f.Properties from rfl, hshadow]
        rfl
      rw [hres]
      unfold HDC_Cmd_GetPropertyValue
      rw [if_neg (by simp)]
      simp only [List.getD_cons_succ, List.getD_cons_zero]
      simp only [hGF, hGP]

/-- Witness for C5: transition of a one-feature device from state 1 to 2,
with the event payload and the subsequent FeatureState read. -/
theorem C5_state_transition_witness :
    (HDC_FeatureStateTransition { FeatureID := 0, FeatureState := 1 } 2).1.FeatureState = 2
      ∧ (HDC_FeatureStateTransition { FeatureID := 0, FeatureState := 1 } 2).2.map messageOf
          = [[HDC_MessageTypeID_Event, 0, HDC_EventID_FeatureStateTransition, 1, 2]]
      ∧ (1 : Nat) ≠ 2
      ∧ HDC_Cmd_GetPropertyValue
          (setFeature [{ FeatureID := 0, FeatureState := 1 }] 0
            (HDC_FeatureStateTransition { FeatureID := 0, FeatureState := 1 } 2).1)
          [HDC_MessageTypeID_Command, 0, HDC_CommandID_GetPropertyValue,
           HDC_PropertyID_FeatureState] 4
        = some [HDC_CmdReply_UInt8Value 2
            [HDC_MessageTypeID_Command, 0, HDC_CommandID_GetPropertyValue,
             HDC_PropertyID_FeatureState]] :=
  (C5_state_transition [{ FeatureID := 0, FeatureState := 1 }]
      { FeatureID := 0, FeatureState := 1 } 2
      (by decide) (by decide) (by decide)).2 (by decide)

/-- C7: LogEventThreshold setter.  An accepted `SetPropertyValue` of the
built-in `LogEventThreshold` property with requested byte `v` stores, and
carries in the reply, the value `logEventThresholdOf v`, which is the
nearest multiple of 10 of `v` clamped to `[10, 50]` (within distance 5 of
the clamped value) and always lies in `{10, 20, 30, 40, 50}`. -/
theorem C7_log_event_threshold (features : List HDC_Feature)
    (f : HDC_Feature) (v : Nat) (hv : v < 256)
    (hf : HDC_GetFeature features f.FeatureID = some f)
    (hshadow : f.Properties.find?
      (fun q => q.PropertyID == HDC_PropertyID_LogEventThreshold) = none) :
    HDC_Cmd_SetPropertyValue features
        [HDC_MessageTypeID_Command, f.FeatureID,
         HDC_CommandID_SetPropertyValue, HDC_PropertyID_LogEventThreshold, v] 5
      = some (setFeature features f.FeatureID
                { f with LogEventThreshold := logEventThresholdOf v },
              [HDC_CmdReply_UInt8Value (logEventThresholdOf v)
                [HDC_MessageTypeID_Command, f.FeatureID,
                 HDC_CommandID_SetPropertyValue,
                 HDC_PropertyID_LogEventThreshold, v]])
      ∧ messageOf (HDC_CmdReply_UInt8Value (logEventThresholdOf v)
            [HDC_MessageTypeID_Command, f.FeatureID,
             HDC_CommandID_SetPropertyValue,
             HDC_PropertyID_LogEventThreshold, v])
          = [0xF2, f.FeatureID, 0xF1, 0x00, logEventThresholdOf v]
      ∧ logEventThresholdOf v % 10 = 0
      ∧ 10 ≤ logEventThresholdOf v ∧ logEventThresholdOf v ≤ 50
      ∧ logEventThresholdOf v
          ≤ (if v < 10 then 10 else if 50 < v then 50 else v) + 5
      ∧ (if v < 10 then 10 else if 50 < v then 50 else v)
          ≤ logEventThresholdOf v + 5 := by
  have hGP : HDC_GetProperty f HDC_PropertyID_LogEventThreshold
      = some { PropertyID := HDC_PropertyID_LogEventThreshold,
               PropertyDataType := HDC_DataTypeID_UINT8,
               PropertyIsReadonly := false,
               GetPropertyValue := some .logEventThresholdGet,
               SetPropertyValue := some .logEventThresholdSet } := by
    unfold HDC_GetProperty
    rw [hshadow]
    rfl
  have harith : logEventThresholdOf v % 10 = 0
      ∧ 10 ≤ logEventThresholdOf v ∧ logEventThresholdOf v ≤ 50
      ∧ logEventThresholdOf v
          ≤ (if v < 10 then 10 else if 50 < v then 50 else v) + 5
      ∧ (if v < 10 then 10 else if 50 < v then 50 else v)
          ≤ logEventThresholdOf v + 5 := by
    unfold logEventThresholdOf
    simp only [HDC_EventLogLevel_DEBUG, HDC_EventLogLevel_CRITICAL]
    split_ifs with h1 h2
    · refine ⟨by omega, ?_⟩
      omega
    · refine ⟨by omega, ?_⟩
      omega
    · have hd := Nat.div_add_mod (v + 5) 10
      have hm : (v + 5) % 10 < 10 := Nat.mod_lt _ (by omega)
      refine ⟨?_, ?_⟩
      · omega
      · omega
  refine ⟨?_, ?_, harith⟩
  · unfold HDC_Cmd_SetPropertyValue
    simp only [List.getD_cons_succ, List.getD_cons_zero]
    simp only [hf, hGP]
    norm_num
    unfold HDC_Cmd_SetPropertyValue_store
    simp only [List.getD_cons_succ, List.getD_cons_zero]
    simp [HDC_DataTypeID_UINT8]
  · unfold HDC_CmdReply_UInt8Value HDC_CmdReply_BlobValue HDC_CmdReply_From_Pieces
    rw [messageOf_pieces]
    rfl

/-- Witness for C7 at `v = 47` on a bare Core feature: the stored and
replied threshold is `logEventThresholdOf 47 = 50`. -/
theorem C7_log_event_threshold_witness :
    HDC_Cmd_SetPropertyValue [{ FeatureID := 0 }]
        [HDC_MessageTypeID_Command, 0, HDC_CommandID_SetPropertyValue,
         HDC_PropertyID_LogEventThreshold, 47] 5
      = some (setFeature [{ FeatureID := 0 }] 0
                { ({ FeatureID := 0 } : HDC_Feature) with
                    LogEventThreshold := logEventThresholdOf 47 },
              [HDC_CmdReply_UInt8Value (logEventThresholdOf 47)
                [HDC_MessageTypeID_Command, 0, HDC_CommandID_SetPropertyValue,
                 HDC_PropertyID_LogEventThreshold, 47]])
      ∧ logEventThresholdOf 47 % 10 = 0
      ∧ 10 ≤ logEventThresholdOf 47 ∧ logEventThresholdOf 47 ≤ 50 := by
  have h := C7_log_event_threshold [{ FeatureID := 0 }] { FeatureID := 0 } 47
    (by decide) (by decide) (by decide)
  exact ⟨h.1, h.2.2.1, h.2.2.2.1, h.2.2.2.2.1⟩

/-- C6: SetPropertyValue size validation for variable-size data types.
For an existing, writable, backing-storage property whose data type has
lower nibble `0xF` (`UTF8` or `BLOB`) and declared `ValueSize > 0`:
a received value of length `≥ ValueSize` is rejected with `InvalidArgs`
and the device (hence the backing storage) is left unchanged, while any
received value of length `< ValueSize` is accepted — the storage is
overwritten via `storageAfterSet` and the reply is the Command success
reply carrying the stored value. -/
theorem C6_set_size_validation (features : List HDC_Feature)
    (f : HDC_Feature) (p : HDC_Property) (fid pid : Nat) (v st : List Nat)
    (hf : HDC_GetFeature features fid = some f)
    (hp : f.Properties.find? (fun q => q.PropertyID == pid) = some p)
    (hro : p.PropertyIsReadonly = false)
    (hdt : p.PropertyDataType = HDC_DataTypeID_UTF8
      ∨ p.PropertyDataType = HDC_DataTypeID_BLOB)
    (hvs : 0 < p.ValueSize)
    (hget : p.GetPropertyValue = none)
    (hset : p.SetPropertyValue = none)
    (hpv : p.pValue = some st)
    (hstlen : st.length = p.ValueSize)
    (hlen : v.length ≤ 250) :
    (p.ValueSize ≤ v.length →
      HDC_Cmd_SetPropertyValue features ([0xF2, fid, 0xF1, pid] ++ v)
          ([0xF2, fid, 0xF1, pid] ++ v).length
        = some (features,
            [HDC_CmdReply_Error HDC_CommandErrorCode_INVALID_PROPERTY_VALUE
              ([0xF2, fid, 0xF1, pid] ++ v)]))
      ∧ (v.length < p.ValueSize →
        ∃ rep : List (List Nat),
          HDC_Cmd_SetPropertyValue features ([0xF2, fid, 0xF1, pid] ++ v)
              ([0xF2, fid, 0xF1, pid] ++ v).length
            = some (featuresAfterSet features f p
                      ([0xF2, fid, 0xF1, pid] ++ v) v.length st, [rep])
          ∧ (messageOf rep).take 4 = [0xF2, fid, 0xF1, 0x00]) := by
  have hfid : f.FeatureID = fid := HDC_GetFeature_id features fid f hf
  subst hfid
  have hpid : p.PropertyID = pid := by
    simpa using List.find?_some hp
  subst hpid
  have hGP : HDC_GetProperty f p.PropertyID = some p := by
    unfold HDC_GetProperty
    rw [hp]
  have hsz : ([0xF2, f.FeatureID, 0xF1, p.PropertyID] ++ v).length
      = v.length + 4 := by
    have h4 : ([0xF2, f.FeatureID, 0xF1, p.PropertyID] : List Nat).length = 4 := rfl
    rw [List.length_append, h4]
    omega
  have hrecv : (([0xF2, f.FeatureID, 0xF1, p.PropertyID] ++ v).length + 252) % 256
      = v.length := by
    rw [hsz]
    omega
  have hnib : p.PropertyDataType % 16 = 15 := by
    rcases hdt with h | h <;> rw [h] <;> rfl
  have hg1 : ([0xF2, f.FeatureID, 0xF1, p.PropertyID] ++ v).getD 1 0
      = f.FeatureID := rfl
  have hg2 : ([0xF2, f.FeatureID, 0xF1, p.PropertyID] ++ v).getD 2 0
      = 0xF1 := rfl
  have hg3 : ([0xF2, f.FeatureID, 0xF1, p.PropertyID] ++ v).getD 3 0
      = p.PropertyID := rfl
  constructor
  · intro hrej
    unfold HDC_Cmd_SetPropertyValue
    rw [hg1, hg3]
    simp only [hf, hGP]
    rw [if_neg (by rw [hro]; simp), if_pos hnib, if_neg (by omega),
      if_pos (by rw [hrecv]; exact hrej)]
  · intro hacc
    unfold HDC_Cmd_SetPropertyValue
    rw [hg1, hg3]
    simp only [hf, hGP]
    rw [if_neg (by rw [hro]; simp), if_pos hnib, if_neg (by omega),
      if_neg (by rw [hrecv]; omega), hrecv]
    unfold HDC_Cmd_SetPropertyValue_store
    simp only [hset, hpv]
    have hGF' : HDC_GetFeature
        (featuresAfterSet features f p
          ([0xF2, f.FeatureID, 0xF1, p.PropertyID] ++ v) v.length st)
        f.FeatureID
        = some (featureAfterSet f p
            ([0xF2, f.FeatureID, 0xF1, p.PropertyID] ++ v) v.length st) :=
      HDC_GetFeature_setFeature features f.FeatureID f _ hf rfl
    have hGP' : HDC_GetProperty
        (featureAfterSet f p
          ([0xF2, f.FeatureID, 0xF1, p.PropertyID] ++ v) v.length st)
        p.PropertyID
        = some (propertyAfterSet p
            ([0xF2, f.FeatureID, 0xF1, p.PropertyID] ++ v) v.length st) := by
      simp only [HDC_GetProperty, featureAfterSet]
      rw [find?_setProperty f.Properties p.PropertyID p
        (propertyAfterSet p ([0xF2, f.FeatureID, 0xF1, p.PropertyID] ++ v)
          v.length st) hp rfl]
    rcases hdt with hcase | hcase
    · refine ⟨HDC_CmdReply_StringValue
          (some (storageAfterSet p
            ([0xF2, f.FeatureID, 0xF1, p.PropertyID] ++ v) v.length st))
          ([0xF2, f.FeatureID, 0xF1, p.PropertyID] ++ v), ?_, ?_⟩
      · have hGet : HDC_Cmd_GetPropertyValue
            (featuresAfterSet features f p
              ([0xF2, f.FeatureID, 0xF1, p.PropertyID] ++ v) v.length st)
            ([0xF2, f.FeatureID, 0xF1, p.PropertyID] ++ v)
            ([0xF2, f.FeatureID, 0xF1, p.PropertyID] ++ v).length
            = some [HDC_CmdReply_StringValue
                (some (storageAfterSet p
                  ([0xF2, f.FeatureID, 0xF1, p.PropertyID] ++ v) v.length st))
                ([0xF2, f.FeatureID, 0xF1, p.PropertyID] ++ v)] := by
          unfold HDC_Cmd_GetPropertyValue
          rw [if_neg (by rw [hg2]; intro hco; exact absurd hco.1 (by decide)), hg1, hg3]
          simp only [hGF', hGP', propertyAfterSet, hget, hcase]
          norm_num [HDC_DataTypeID_BOOL, HDC_DataTypeID_UINT8,
            HDC_DataTypeID_UINT16, HDC_DataTypeID_UINT32, HDC_DataTypeID_INT8,
            HDC_DataTypeID_INT16, HDC_DataTypeID_INT32, HDC_DataTypeID_FLOAT,
            HDC_DataTypeID_DOUBLE, HDC_DataTypeID_UTF8, HDC_DataTypeID_BLOB,
            storageAfterSet, HDC_CmdReply_StringValue]
        rw [hGet]
      · unfold HDC_CmdReply_StringValue HDC_CmdReply_BlobValue
          HDC_CmdReply_From_Pieces
        rw [messageOf_pieces]
        rw [hg1, hg2]
        simp [HDC_MessageTypeID_Command, HDC_CommandErrorCode_NO_ERROR,
          List.take]
    · refine ⟨HDC_CmdReply_BlobValue
          ((storageAfterSet p
            ([0xF2, f.FeatureID, 0xF1, p.PropertyID] ++ v) v.length st).take
            p.ValueSize)
          ([0xF2, f.FeatureID, 0xF1, p.PropertyID] ++ v), ?_, ?_⟩
      · have hGet : HDC_Cmd_GetPropertyValue
            (featuresAfterSet features f p
              ([0xF2, f.FeatureID, 0xF1, p.PropertyID] ++ v) v.length st)
            ([0xF2, f.FeatureID, 0xF1, p.PropertyID] ++ v)
            ([0xF2, f.FeatureID, 0xF1, p.PropertyID] ++ v).length
            = some [HDC_CmdReply_BlobValue
                ((storageAfterSet p
                  ([0xF2, f.FeatureID, 0xF1, p.PropertyID] ++ v) v.length st).take
                  p.ValueSize)
                ([0xF2, f.FeatureID, 0xF1, p.PropertyID] ++ v)] := by
          unfold HDC_Cmd_GetPropertyValue
          rw [if_neg (by rw [hg2]; intro hco; exact absurd hco.1 (by decide)), hg1, hg3]
          simp only [hGF', hGP', propertyAfterSet, hget, hcase]
          rw [if_neg (by decide), if_neg (by decide), if_neg (by decide),
            if_neg (by decide), if_neg (by decide), if_neg (by decide),
            if_neg (by decide), if_neg (by decide), if_neg (by decide),
            if_neg (by decide), if_pos trivial, if_neg (by omega)]
        rw [hGet]
      · unfold HDC_CmdReply_BlobValue HDC_CmdReply_From_Pieces
        rw [messageOf_pieces]
        rw [hg1, hg2]
        simp [HDC_MessageTypeID_Command, HDC_CommandErrorCode_NO_ERROR,
          List.take]

/-- Witness for C6: a writable `UTF8` property with `ValueSize = 4`
accepts the 2-byte value `[55, 56]` and replies with success. -/
theorem C6_set_size_validation_witness :
    ∃ rep : List (List Nat),
      HDC_Cmd_SetPropertyValue
          [{ FeatureID := 0, Properties :=
              [{ PropertyID := 0x20, PropertyDataType := HDC_DataTypeID_UTF8,
                 PropertyIsReadonly := false, pValue := some [0, 0, 0, 0],
                 ValueSize := 4 }] }]
          ([0xF2, 0, 0xF1, 0x20] ++ [55, 56])
          ([0xF2, 0, 0xF1, 0x20] ++ [55, 56]).length
        = some (featuresAfterSet
                  [{ FeatureID := 0, Properties :=
                      [{ PropertyID := 0x20, PropertyDataType := HDC_DataTypeID_UTF8,
                         PropertyIsReadonly := false, pValue := some [0, 0, 0, 0],
                         ValueSize := 4 }] }]
                  { FeatureID := 0, Properties :=
                      [{ PropertyID := 0x20, PropertyDataType := HDC_DataTypeID_UTF8,
                         PropertyIsReadonly := false, pValue := some [0, 0, 0, 0],
                         ValueSize := 4 }] }
                  { PropertyID := 0x20, PropertyDataType := HDC_DataTypeID_UTF8,
                    PropertyIsReadonly := false, pValue := some [0, 0, 0, 0],
                    ValueSize := 4 }
                  ([0xF2, 0, 0xF1, 0x20] ++ [55, 56]) 2 [0, 0, 0, 0], [rep])
        ∧ (messageOf rep).take 4 = [0xF2, 0, 0xF1, 0x00] := by
  have h := C6_set_size_validation
    [{ FeatureID := 0, Properties :=
        [{ PropertyID := 0x20, PropertyDataType := HDC_DataTypeID_UTF8,
           PropertyIsReadonly := false, pValue := some [0, 0, 0, 0],
           ValueSize := 4 }] }]
    { FeatureID := 0, Properties :=
        [{ PropertyID := 0x20, PropertyDataType := HDC_DataTypeID_UTF8,
           PropertyIsReadonly := false, pValue := some [0, 0, 0, 0],
           ValueSize := 4 }] }
    { PropertyID := 0x20, PropertyDataType := HDC_DataTypeID_UTF8,
      PropertyIsReadonly := false, pValue := some [0, 0, 0, 0], ValueSize := 4 }
    0 0x20 [55, 56] [0, 0, 0, 0]
    (by decide) (by decide) (by decide) (Or.inl (by decide)) (by decide)
    (by decide) (by decide) (by decide) (by decide) (by decide)
  exact h.2 (by decide)

end HDC
